import Mathlib

/-!
Verification development for `pkgbuild.py`, a script that turns source
tarballs into Solaris packages.  The definitions below are a shallow
embedding of the program: pure fragments become Lean functions, stateful
fragments become explicit state passing, fallible fragments return
`Except`.  Each claim about the program is settled by a theorem further
down in the file.
-/

namespace Pkgbuild


/-! ### Tarball filename parsing (`Package.__init__`)

The source runs `re.match('(([^0-9]+?)-([-0-9_.]+))\.tar\.(gz|bz2|xz)+$', tarball)`.
`matchStem` and `matchVer` implement this anchored pattern as a backtracking
matcher over the character list, in the engine's preference order:

* group 2 (`[^0-9]+?`, the name) is non-greedy, so the shortest name whose
  continuation matches is taken — `matchStem` tries a split at the first
  `-` before extending the name;
* group 3 (`[-0-9_.]+`, the version) is bounded by the literal `.tar.`;
  since `t`, `a`, `r` are not version characters and `.` is not an
  extension character, at most one split of the remainder into
  `version ++ ".tar." ++ extensions` exists, so trying the shortest
  version first (as `matchVer` does) agrees with the greedy `+`;
* `(gz|bz2|xz)+` is a nonempty run of extension blocks (`extsRun`); the
  three alternatives start with distinct letters, so no backtracking
  arises between them;
* Python's `$` matches at the end of the string or just before a final
  newline; `parseTarball` normalises a single trailing newline away.
-/

def isVersionChar (c : Char) : Bool :=
  c = '-' || c.isDigit || c = '_' || c = '.'

def tarDot : List Char := ['.', 't', 'a', 'r', '.']

def extsRun : List Char → Bool
  | 'g' :: 'z' :: r => r.isEmpty || extsRun r
  | 'b' :: 'z' :: '2' :: r => r.isEmpty || extsRun r
  | 'x' :: 'z' :: r => r.isEmpty || extsRun r
  | _ => false

def matchVer : List Char → Option (List Char × List Char)
  | [] => none
  | c :: rest =>
    if isVersionChar c = true then
      if rest.take 5 = tarDot ∧ extsRun (rest.drop 5) = true then
        some ([c], rest.drop 5)
      else
        (matchVer rest).map (fun p => (c :: p.1, p.2))
    else none

def matchStem : List Char → Option (List Char × List Char × List Char)
  | [] => none
  | c :: rest =>
    if c.isDigit = true then none
    else if rest.head? = some '-' then
      match matchVer rest.tail with
      | some (v, e) => some ([c], v, e)
      | none => (matchStem rest).map (fun q => (c :: q.1, q.2.1, q.2.2))
    else (matchStem rest).map (fun q => (c :: q.1, q.2.1, q.2.2))

/-- Result of the filename regular expression: `matched` is group 0 (the
whole match), `name` group 2, `version` group 3, `exts` the text matched
by `(gz|bz2|xz)+`.  Group 1 (`base`) is `name ++ "-" ++ version` by the
shape of the pattern. -/
structure TarballParse where
  matched : String
  name : String
  version : String
  exts : String
  deriving Repr, DecidableEq

def parseTarball (s : String) : Option TarballParse :=
  let cs := if s.data.getLast? = some '\n' then s.data.dropLast else s.data
  (matchStem cs).map (fun q => ⟨cs.asString, q.1.asString, q.2.1.asString, q.2.2.asString⟩)

/-- The identity fields set by `Package.__init__`: `tarball = match.group(0)`,
`base = match.group(1)`, `name = match.group(2)`, `version = match.group(3)`,
and `title` defaults to `name` when previously unset (falsy). -/
structure PackageFields where
  tarball : String
  base : String
  name : String
  title : String
  version : String
  deriving Repr, DecidableEq

/-- `Package.__init__(self, app, tarball)`.  `tb = none` models
`tarball=None`; a falsy (empty) tarball also bypasses parsing, leaving the
class-level defaults (empty strings, or whatever the subclass assigned —
`title0` carries the previously assigned title). -/
def packageInit (tb : Option String) (title0 : String) : Except String PackageFields :=
  match tb with
  | none => .ok ⟨"", "", "", title0, ""⟩
  | some t =>
    if t = "" then .ok ⟨"", "", "", title0, ""⟩
    else
      match parseTarball t with
      | none => .error ("Cannot parse tarball name: " ++ t)
      | some r =>
        .ok ⟨r.matched, r.name ++ "-" ++ r.version, r.name,
             if title0 = "" then r.name else title0, r.version⟩

/-- The spec's filename pattern: `<name>-<version>.tar.<ext>` with
`<ext> ∈ {gz, bz2, xz}`, a nonempty digit-free name and a nonempty
version over `[-0-9_.]`. -/
def SpecMatch (s n v e : String) : Prop :=
  s = n ++ "-" ++ v ++ ".tar." ++ e ∧ n ≠ "" ∧ (∀ c ∈ n.data, ¬ c.isDigit = true) ∧
    v ≠ "" ∧ (∀ c ∈ v.data, isVersionChar c = true) ∧ (e = "gz" ∨ e = "bz2" ∨ e = "xz")

instance (s n v e : String) : Decidable (SpecMatch s n v e) := by
  unfold SpecMatch; infer_instance

/-- The pattern the code actually accepts: like `SpecMatch` but the
extension is any nonempty run of `{gz, bz2, xz}` blocks, and a single
trailing newline is tolerated (Python's `$`). -/
def CodeMatch (s n v e : String) : Prop :=
  (s = n ++ "-" ++ v ++ ".tar." ++ e ∨ s = n ++ "-" ++ v ++ ".tar." ++ e ++ "\n") ∧
    n ≠ "" ∧ (∀ c ∈ n.data, ¬ c.isDigit = true) ∧
    v ≠ "" ∧ (∀ c ∈ v.data, isVersionChar c = true) ∧ extsRun e.data = true

/-! ### Service manifests (`ServiceManifest`)

The rendering side of the class is pure: `generate_manifest` builds the
`dependencies_xml` accumulator by appending dependency fragments and then
method fragments, and substitutes it into `manifest_template`.  The
aliasing behaviour of the mutable default arguments of `__init__` is
modelled separately further down with an explicit object store. -/

structure ServiceManifest where
  name : String
  title : String
  service_name : String
  dependencies : List String
  config_files : List String
  init_script : Option String := none
  start_command : Option (String × Int) := none
  stop_command : Option (String × Int) := none
  refresh_command : Option (String × Int) := none
  restart_command : Option (String × Int) := none
  deriving Repr, DecidableEq

def networkDependency : String :=
  "\n    <dependency name=\"network\"\n                grouping=\"require_all\"\n                restart_on=\"error\"\n                type=\"service\">\n      <service_fmri value=\"svc:/milestone/network:default\" />\n    </dependency>\n"

def filesystemDependency : String :=
  "\n    <dependency name=\"filesystem-local\"\n                grouping=\"require_all\"\n                restart_on=\"none\"\n                type=\"service\">\n      <service_fmri value=\"svc:/system/filesystem/local:default\" />\n    </dependency>\n"

/-- `os.path.basename`: the part after the last slash. -/
def pyBasename (p : String) : String :=
  List.asString (p.data.reverse.takeWhile (fun c => ¬ c = '/')).reverse

/-- `re.sub('\.', '-', s)`. -/
def dotsToDashes (s : String) : String :=
  List.asString (s.data.map (fun c => if c = '.' then '-' else c))

/-- `config_dependency % {'name': re.sub('\.','-',basename(config)), 'path': config}`. -/
def configDependency (cfg : String) : String :=
  "\n    <dependency name=\"" ++ dotsToDashes (pyBasename cfg) ++
    "-config-file\" \n                grouping=\"require_all\" \n                restart_on=\"none\" \n                type=\"path\">\n      <service_fmri value=\"file://" ++
    cfg ++ "\" />\n    </dependency>\n"

/-- `method_template % {'name': nm, 'command': cmd, 'timeout': t}`.  The
`command` value is inserted verbatim; no further `%` substitution is
applied to it. -/
def methodTemplate (nm cmd : String) (t : Int) : String :=
  "\n    <exec_method name=\"" ++ nm ++
    "\"\n                 type=\"method\" \n                 exec=\"" ++ cmd ++
    "\" \n                 timeout_seconds=\"" ++ toString t ++
    "\">\n    </exec_method>\n"

/-- The dependency fragments accumulated by `generate_manifest` before any
method fragment: recognised dependency names contribute their fixed
fragment, anything else contributes nothing, then one fragment per watched
config file. -/
def depsXml (sm : ServiceManifest) : String :=
  String.join (sm.dependencies.map (fun d =>
    if d = "network" then networkDependency
    else if d = "filesystem" then filesystemDependency
    else "")) ++
  String.join (sm.config_files.map configDependency)

/-- The `(name, command, timeout)` triples of the `exec_method` fragments
appended by `generate_manifest`, in order: the command branch when both
start and stop commands are truthy, otherwise the init-script branch
(whose commands are the literal, never-substituted `%s` templates),
otherwise nothing. -/
def methodSpecs (sm : ServiceManifest) : List (String × String × Int) :=
  match sm.start_command, sm.stop_command with
  | some (sa, ta), some (sb, tb) =>
    [("start", sa, ta), ("stop", sb, tb)] ++
    (match sm.refresh_command with
     | some (rc, rt) => [("refresh", rc, rt)]
     | none => [("refresh", sa ++ "; " ++ sb, ta + tb)]) ++
    (match sm.restart_command with
     | some (rc, rt) => [("restart", rc, rt)]
     | none => [("restart", sa ++ "; " ++ sb, ta + tb)])
  | _, _ =>
    match sm.init_script with
    | some _ =>
      [("start", "%s start", 60), ("stop", "%s stop", 60),
       ("refresh", "%s stop; %s start", 60), ("restart", "%s stop; %s start", 60)]
    | none => []

/-- The full `dependencies_xml` accumulator of `generate_manifest`. -/
def dependenciesXml (sm : ServiceManifest) : String :=
  depsXml sm ++ String.join ((methodSpecs sm).map (fun x => methodTemplate x.1 x.2.1 x.2.2))

/-- The text written by `generate_manifest` (`manifest_template`
substituted with name, service_name, dependencies and title). -/
def generateManifest (sm : ServiceManifest) : String :=
  "<?xml version=\"1.0\"?>\n<!DOCTYPE service_bundle SYSTEM \"/usr/share/lib/xml/dtd/service_bundle.dtd.1\">\n<service_bundle type=\"manifest\" name=\"" ++
    sm.name ++ "\">\n  <service name=\"" ++ sm.service_name ++
    "\" type=\"service\" version=\"1\">\n    <create_default_instance enabled=\"true\"/>\n    " ++
    dependenciesXml sm ++
    "\n    <template>\n      <common_name>\n        <loctext xml:lang=\"C\">" ++
    sm.title ++
    "</loctext>\n      </common_name>\n    </template>\n  </service>\n</service_bundle>\n"

/-- A descriptor with `start=("A",10)`, `stop=("B",5)` and no explicit
refresh/restart, as in the spec's example. -/
def c3sm : ServiceManifest :=
  { name := "svc", title := "Svc", service_name := "application/svc",
    dependencies := ["filesystem"], config_files := [],
    start_command := some ("A", 10), stop_command := some ("B", 5) }

/-- The method fragments derived from the explicit lifecycle commands
alone; this function does not receive the init script at all. -/
def commandMethodSpecs (start stop : String × Int)
    (refresh restart : Option (String × Int)) : List (String × String × Int) :=
  [("start", start.1, start.2), ("stop", stop.1, stop.2)] ++
  (match refresh with
   | some (rc, rt) => [("refresh", rc, rt)]
   | none => [("refresh", start.1 ++ "; " ++ stop.1, start.2 + stop.2)]) ++
  (match restart with
   | some (rc, rt) => [("restart", rc, rt)]
   | none => [("restart", start.1 ++ "; " ++ stop.1, start.2 + stop.2)])

/-! ### Prototype generation (`Package.package`, lines 625-627)

`for line in mkreader('pkgproto', staging+'=/'): if not re.match('d none / ', line):
prototype.write(line)` — a prefix filter over the external tool's output lines. -/

/-- `re.match('d none / ', line)`: the pattern is literal, so this is a
prefix test on the first nine characters. -/
def lineIsRoot (l : String) : Bool :=
  l.data.take 9 = "d none / ".data

/-- The lines the `package` stage writes into the prototype file. -/
def filterProtoLines (lines : List String) : List String :=
  lines.filter (fun l => ¬ lineIsRoot l = true)

/-! ### Directory ownership walk (`Package.package`, lines 614-620)

For each directory under the staging root (each appears exactly once in
`os.walk`), the relative entry is computed by slicing off `staging + '/'`,
and if `/` + entry is a live directory its stat is copied onto the staged
directory with `chown`/`chmod`. -/

structure FileAttrs where
  uid : Nat
  gid : Nat
  mode : Nat
  deriving Repr, DecidableEq

/-- `join(root, x)[len(staging)+1:]`: the staged path made relative. -/
def relUnder (staging p : String) : String :=
  List.asString (p.data.drop (staging.data.length + 1))

/-- The ownership walk: `dirs` enumerates the staged directories (absolute
paths under the staging root, each once); `live q = some a` models
`isdir(q)` on the live system together with `os.stat(q)`; `attrs` is the
staged tree's attribute map, updated by `os.chown`/`os.chmod`. -/
def ownershipPass (staging : String) (live : String → Option FileAttrs)
    (dirs : List String) (attrs : String → FileAttrs) : String → FileAttrs :=
  dirs.foldl (fun acc p =>
    match live ("/" ++ relUnder staging p) with
    | some la => fun q => if q = p then la else acc q
    | none => acc) attrs

/-! ### Dispatcher (`PkgBuild.main`)

`for key in self.pkgmap.keys(): if re.match(key + '-', path): ... break`
— the registered keys are literal strings, so `re.match(key + '-', path)`
is a prefix test of `key + "-"` against the archive path; the first
matching key's variant runs, otherwise the generic `Package`. -/

def strPre (p s : String) : Bool :=
  s.data.take p.data.length = p.data

def selectVariant (keys : List String) (path : String) : Option String :=
  keys.find? (fun k => strPre (k ++ "-") path)

inductive Dispatched
  | variant (key : String)
  | generic
  deriving Repr, DecidableEq

def dispatch (keys : List String) (path : String) : Dispatched :=
  match selectVariant keys path with
  | some k => .variant k
  | none => .generic

/-- The keys of `PkgBuild.pkgmap`. -/
def pkgmapKeys : List String :=
  ["apcupsd", "db", "dovecot", "glib", "netatalk", "ngircd", "ruby-enterprise"]

/-! ### External commands (`CommandLineApp.shell`, `Package.unpack`)

`shell` calls `subprocess.call` and raises unless the status is zero.
`unpack` instead wires `mkreader`/`mkwriter` pipes through `shuttle`,
which copies bytes until end-of-stream; neither helper ever waits on or
inspects the spawned processes' exit statuses. -/

inductive PyError
  | typeError (msg : String)
  | exception (msg : String)
  deriving Repr, DecidableEq

/-- `CommandLineApp.shell`, given the process's completion status. -/
def shellRun (exitCode : Int) (args : List String) : Except PyError Bool :=
  if exitCode = 0 then .ok true
  else .error (.exception ("Command failed: " ++ toString args))

def isPrefixList : List Char → List Char → Bool
  | [], _ => true
  | _ :: _, [] => false
  | a :: as, b :: bs => a = b && isPrefixList as bs

def containsSub (sub : List Char) : List Char → Bool
  | [] => sub.isEmpty
  | c :: rest => isPrefixList sub (c :: rest) || containsSub sub rest

/-- Python's `sub in s` substring test. -/
def strContainsSub (s sub : String) : Bool :=
  containsSub sub.data s.data

/-- The facts about the outside world that `Package.unpack` consults (or,
for the piped processes' exit statuses, pointedly does not). -/
structure UnpackEnv where
  tarballIsFile : Bool
  xzInstalled : Bool
  bzip2Installed : Bool
  gzipInstalled : Bool
  decompressExit : Int
  tarExit : Int
  chownExit : Int
  deriving Repr, DecidableEq

/-- `Package.unpack`: assert the tarball exists, pick the decompressor by
substring of the name, require the tool, shuttle the pipe (the spawned
processes' statuses `decompressExit`/`tarExit` are never read), then run
`chown -R root:root base` through `shell`. -/
def unpackResult (env : UnpackEnv) (tarball base : String) : Except PyError Unit := do
  if ¬ env.tarballIsFile then
    throw (.exception "AssertionError")
  if strContainsSub tarball ".xz" then do
    if ¬ env.xzInstalled then
      throw (.exception "Please install the xz package")
  else if strContainsSub tarball ".bz2" then do
    if ¬ env.bzip2Installed then
      throw (.exception "Please install the bzip2 package")
  else if strContainsSub tarball ".gz" then do
    if ¬ env.gzipInstalled then
      throw (.exception "Please install the gzip package")
  match shellRun env.chownExit ["chown", "-R", "root:root", base] with
  | .ok _ => pure ()
  | .error e => throw e

def configureRun (code : Int) : Except PyError Bool :=
  shellRun code ["./configure", "--prefix=/usr", "--sysconfdir=/etc"]

def buildRun (code : Int) : Except PyError Bool :=
  shellRun code ["make", "-j8"]

def installRun (code : Int) (staging : String) : Except PyError Bool :=
  shellRun code ["make", "INSTALL=/usr/bin/ginstall", "DESTDIR=" ++ staging, "install"]

def pkgmkRun (code : Int) : Except PyError Bool :=
  shellRun code ["pkgmk", "-o"]

def pkgtransRun (code : Int) (base name : String) : Except PyError Bool :=
  shellRun code ["pkgtrans", "-s", "/var/spool/pkg", "/tmp/" ++ base ++ ".pkg", name]

def c8env : UnpackEnv :=
  { tarballIsFile := true, xzInstalled := true, bzip2Installed := true,
    gzipInstalled := true, decompressExit := 1, tarExit := 1, chownExit := 0 }

/-! ### The `package` stage's manifest handling (`Package.package`)

The decision structure of the stage: a pre-attached manifest is rendered
(if a `ServiceManifest`) or taken as a file, copied into
`etc/svc/profile`, and the three lifecycle script lines queued; after
`install`, if no manifest was attached and `etc/init.d/<base>` exists in
the staging tree, a descriptor is synthesized — evaluating
`'etc/init.d' % self.base`, a format string with no conversion specifier,
which raises `TypeError`; the synthesized value is in any case only
assigned, never copied into the staging tree.  Finally `pkgproto` output
is filtered into the prototype. -/

def pyPercentFmtGo : List Char → List String → Except PyError (List Char)
  | [], [] => .ok []
  | [], _ :: _ => .error (.typeError "not all arguments converted during string formatting")
  | '%' :: 's' :: rest, a :: args => (pyPercentFmtGo rest args).map (fun r => a.data ++ r)
  | '%' :: 's' :: _, [] => .error (.typeError "not enough arguments for format string")
  | c :: rest, args => (pyPercentFmtGo rest args).map (fun r => c :: r)

/-- Python's `template % args` for string arguments and `%s` specifiers. -/
def pyPercentFormat (t : String) (args : List String) : Except PyError String :=
  (pyPercentFmtGo t.data args).map List.asString

/-- `os.path.join` for two components (POSIX). -/
def pathJoin (a b : String) : String :=
  if b.data.take 1 = ['/'] then b
  else if a = "" then b
  else if a.data.getLast? = some '/' then a ++ b
  else a ++ "/" ++ b

/-- `Package.__init__` lines 501-503: adopt `join(os.getcwd(), name + '.xml')`
as the pre-built service manifest when that file exists. -/
def initManifestPath (files : List String) (cwd name : String) : Option String :=
  if pathJoin cwd (name ++ ".xml") ∈ files then some (pathJoin cwd (name ++ ".xml"))
  else none

inductive ManifestVal
  | path (p : String)
  | svc (sm : ServiceManifest)
  deriving Repr, DecidableEq

structure StageOut where
  copiedManifest : Option String
  postinstall : List String
  preremove : List String
  postremove : List String
  synthesized : Option ServiceManifest
  protoLines : List String
  deriving Repr, DecidableEq

def packageStage (manifest0 : Option ManifestVal) (name title base : String)
    (stagedFiles : List String) (protoLines : List String) : Except PyError StageOut := do
  let copied : Option String :=
    match manifest0 with
    | some (.path p) => some (pyBasename p)
    | some (.svc sm) => some (sm.name ++ ".xml")
    | none => none
  let post : List String :=
    match copied with
    | some b => ["svccfg import /etc/svc/profile/" ++ b]
    | none => []
  let prer : List String :=
    match copied with
    | some _ => ["svcadm disable " ++ name]
    | none => []
  let postr : List String :=
    match copied with
    | some _ => ["svccfg delete " ++ name]
    | none => []
  let synth : Option ServiceManifest ←
    if manifest0.isNone ∧ ("etc/init.d/" ++ base) ∈ stagedFiles then do
      let scriptPath ←
        match pyPercentFormat "etc/init.d" [base] with
        | .ok s => pure s
        | .error e => throw e
      pure (some { name := name, title := title,
                   service_name := "application/" ++ base,
                   dependencies := ["filesystem", "network"], config_files := [],
                   init_script := some scriptPath })
    else
      pure none
  pure { copiedManifest := copied, postinstall := post, preremove := prer,
         postremove := postr, synthesized := synth,
         protoLines := filterProtoLines protoLines }

/-! ### Mutable default arguments of `ServiceManifest.__init__` (claim C10)

Python evaluates default argument expressions once, at `def` time; the
resulting list objects are shared by every call that omits the argument,
and `add_dependency`/`add_config_file` mutate them in place.  The store
models Python list objects by index; `smDefaults` is the one-time
allocation of `['filesystem']` and `[]`. -/

structure PyListStore where
  store : List (List String)
  deriving Repr, DecidableEq

def allocList (st : PyListStore) (v : List String) : PyListStore × Nat :=
  ({ store := st.store ++ [v] }, st.store.length)

def readList (st : PyListStore) (r : Nat) : List String :=
  st.store.getD r []

def appendList (st : PyListStore) (r : Nat) (x : String) : PyListStore :=
  { store := st.store.set r (st.store.getD r [] ++ [x]) }

def smDefaultsStore : PyListStore :=
  (allocList (allocList { store := [] } ["filesystem"]).1 []).1

def smDefaultDepsRef : Nat :=
  (allocList { store := [] } ["filesystem"]).2

def smDefaultConfigRef : Nat :=
  (allocList (allocList { store := [] } ["filesystem"]).1 []).2

structure SMHeapObj where
  depsRef : Nat
  configRef : Nat
  deriving Repr, DecidableEq

/-- `ServiceManifest.__init__`: omitting `dependencies`/`config_files`
binds the attribute to the shared default object itself, not a copy. -/
def mkServiceManifestRefs (defDeps defCfg : Nat)
    (depsArg configArg : Option Nat) : SMHeapObj :=
  { depsRef := depsArg.getD defDeps, configRef := configArg.getD defCfg }

def addDependencyH (st : PyListStore) (o : SMHeapObj) (d : String) : PyListStore :=
  appendList st o.depsRef d

def addConfigFileH (st : PyListStore) (o : SMHeapObj) (c : String) : PyListStore :=
  appendList st o.configRef c

def c10sm1 : SMHeapObj := mkServiceManifestRefs smDefaultDepsRef smDefaultConfigRef none none

def c10st1 : PyListStore := addDependencyH smDefaultsStore c10sm1 "network"

def c10st2 : PyListStore := addConfigFileH c10st1 c10sm1 "/etc/foo.conf"

def c10sm2 : SMHeapObj := mkServiceManifestRefs smDefaultDepsRef smDefaultConfigRef none none

theorem strDataAppend (a b : String) : (a ++ b).data = a.data ++ b.data := rfl

theorem strOfData (a b : String) (h : a.data = b.data) : a = b := by
  cases a; cases b; exact congrArg String.mk h

theorem asString_data (l : List Char) : (List.asString l).data = l := rfl

theorem matchVer_sound : ∀ cs v e, matchVer cs = some (v, e) →
    cs = v ++ tarDot ++ e ∧ v ≠ [] ∧ (∀ c ∈ v, isVersionChar c = true) ∧ extsRun e = true := by
  intro cs
  induction cs with
  | nil => intro v e h; simp [matchVer] at h
  | cons c rest ih =>
    intro v e h
    simp only [matchVer] at h
    by_cases hvc : isVersionChar c = true
    · rw [if_pos hvc] at h
      by_cases hstop : rest.take 5 = tarDot ∧ extsRun (rest.drop 5) = true
      · rw [if_pos hstop] at h
        simp only [Option.some.injEq, Prod.mk.injEq] at h
        obtain ⟨hv, he⟩ := h
        subst hv; subst he
        refine ⟨?_, by simp, by simpa using hvc, hstop.2⟩
        have hsplit : rest = tarDot ++ rest.drop 5 := by
          conv_lhs => rw [← List.take_append_drop 5 rest]
          rw [hstop.1]
        simp only [List.cons_append, List.nil_append]
        exact congrArg (c :: ·) hsplit
      · rw [if_neg hstop] at h
        rw [Option.map_eq_some'] at h
        obtain ⟨⟨v0, e0⟩, hp, hpe⟩ := h
        simp only [Prod.mk.injEq] at hpe
        obtain ⟨hv, he⟩ := hpe
        subst hv; subst he
        obtain ⟨hcs, _, hall, hex⟩ := ih v0 e0 hp
        refine ⟨?_, by simp, ?_, hex⟩
        · simp only [List.cons_append]
          exact congrArg (c :: ·) hcs
        · intro x hx
          rcases List.mem_cons.mp hx with hx | hx
          · subst hx; exact hvc
          · exact hall x hx
    · rw [if_neg hvc] at h
      simp at h

theorem matchVer_complete : ∀ (v e : List Char), v ≠ [] →
    (∀ c ∈ v, isVersionChar c = true) → extsRun e = true →
    (matchVer (v ++ tarDot ++ e)).isSome = true := by
  intro v
  induction v with
  | nil => intro e h; exact absurd rfl h
  | cons c v' ih =>
    intro e _ hall he
    simp only [List.cons_append, matchVer, List.append_eq]
    rw [if_pos (hall c (List.mem_cons_self c v'))]
    by_cases hstop : (v' ++ tarDot ++ e).take 5 = tarDot ∧
        extsRun ((v' ++ tarDot ++ e).drop 5) = true
    · rw [if_pos hstop]; rfl
    · rw [if_neg hstop]
      rcases v' with _ | ⟨d, v''⟩
      · exfalso
        apply hstop
        constructor
        · simp [tarDot]
        · simpa [tarDot] using he
      · rw [Option.isSome_map']
        exact ih e (by simp) (fun x hx => hall x (List.mem_cons_of_mem _ hx)) he

theorem matchStem_sound : ∀ cs n v e, matchStem cs = some (n, v, e) →
    cs = n ++ '-' :: (v ++ tarDot ++ e) ∧ n ≠ [] ∧ (∀ c ∈ n, ¬ c.isDigit = true) ∧
      v ≠ [] ∧ (∀ c ∈ v, isVersionChar c = true) ∧ extsRun e = true := by
  intro cs
  induction cs with
  | nil => intro n v e h; simp [matchStem] at h
  | cons c rest ih =>
    intro n v e h
    simp only [matchStem] at h
    by_cases hd : c.isDigit = true
    · rw [if_pos hd] at h; simp at h
    · rw [if_neg hd] at h
      by_cases hh : rest.head? = some '-'
      · rw [if_pos hh] at h
        have hrest : rest = '-' :: rest.tail := by
          cases rest with
          | nil => simp at hh
          | cons a as =>
            simp only [List.head?, Option.some.injEq] at hh
            rw [hh]; rfl
        cases hmv : matchVer rest.tail with
        | some p =>
          obtain ⟨v0, e0⟩ := p
          rw [hmv] at h
          simp only [Option.some.injEq, Prod.mk.injEq] at h
          obtain ⟨hn, hv, he⟩ := h
          subst hn; subst hv; subst he
          obtain ⟨hcs, hv0, hall, hex⟩ := matchVer_sound _ _ _ hmv
          refine ⟨?_, by simp, ?_, hv0, hall, hex⟩
          · rw [hrest, hcs]; rfl
          · intro x hx
            rcases List.mem_cons.mp hx with hx | hx
            · subst hx; exact hd
            · simp at hx
        | none =>
          rw [hmv] at h
          rw [Option.map_eq_some'] at h
          obtain ⟨⟨n0, v0, e0⟩, hp, hpe⟩ := h
          simp only [Prod.mk.injEq] at hpe
          obtain ⟨hn, hv, he⟩ := hpe
          subst hn; subst hv; subst he
          obtain ⟨hcs, hn0, hnd, hv0, hall, hex⟩ := ih n0 v0 e0 hp
          refine ⟨?_, by simp, ?_, hv0, hall, hex⟩
          · simp only [List.cons_append]
            exact congrArg (c :: ·) hcs
          · intro x hx
            rcases List.mem_cons.mp hx with hx | hx
            · subst hx; exact hd
            · exact hnd x hx
      · rw [if_neg hh] at h
        rw [Option.map_eq_some'] at h
        obtain ⟨⟨n0, v0, e0⟩, hp, hpe⟩ := h
        simp only [Prod.mk.injEq] at hpe
        obtain ⟨hn, hv, he⟩ := hpe
        subst hn; subst hv; subst he
        obtain ⟨hcs, hn0, hnd, hv0, hall, hex⟩ := ih n0 v0 e0 hp
        refine ⟨?_, by simp, ?_, hv0, hall, hex⟩
        · simp only [List.cons_append]
          exact congrArg (c :: ·) hcs
        · intro x hx
          rcases List.mem_cons.mp hx with hx | hx
          · subst hx; exact hd
          · exact hnd x hx

theorem matchStem_complete : ∀ (n v e : List Char), n ≠ [] →
    (∀ c ∈ n, ¬ c.isDigit = true) → v ≠ [] → (∀ c ∈ v, isVersionChar c = true) →
    extsRun e = true →
    (matchStem (n ++ '-' :: (v ++ tarDot ++ e))).isSome = true := by
  intro n
  induction n with
  | nil => intro v e h; exact absurd rfl h
  | cons c n' ih =>
    intro v e _ hnd hv hall he
    simp only [List.cons_append, matchStem, List.append_eq]
    rw [if_neg (hnd c (List.mem_cons_self c n'))]
    rcases n' with _ | ⟨d, n''⟩
    · simp only [List.nil_append]
      rw [if_pos (show ('-' :: (v ++ tarDot ++ e)).head? = some '-' from rfl)]
      have hc := matchVer_complete v e hv hall he
      obtain ⟨⟨v0, e0⟩, hp⟩ := Option.isSome_iff_exists.mp hc
      simp only [List.tail_cons]
      rw [hp]
      rfl
    · by_cases hdd : d = '-'
      · subst hdd
        simp only [List.cons_append]
        rw [if_pos (show ('-' :: (n'' ++ '-' :: (v ++ tarDot ++ e))).head? = some '-' from rfl)]
        simp only [List.tail_cons]
        cases hmv : matchVer (n'' ++ '-' :: (v ++ tarDot ++ e)) with
        | some p => obtain ⟨v0, e0⟩ := p; rfl
        | none =>
          rw [Option.isSome_map']
          exact ih v e (by simp)
            (fun x hx => hnd x (List.mem_cons_of_mem _ hx)) hv hall he
      · simp only [List.cons_append]
        rw [if_neg (show ¬ (d :: (n'' ++ '-' :: (v ++ tarDot ++ e))).head? = some '-' by
          simpa using hdd)]
        rw [Option.isSome_map']
        exact ih v e (by simp)
          (fun x hx => hnd x (List.mem_cons_of_mem _ hx)) hv hall he

theorem specMatch_data (n v e : String) :
    (n ++ "-" ++ v ++ ".tar." ++ e).data = n.data ++ '-' :: (v.data ++ tarDot ++ e.data) := by
  simp only [strDataAppend, List.append_assoc]
  rfl

theorem strNeEmpty_data (a : String) (h : a ≠ "") : a.data ≠ [] := by
  intro h0
  exact h (strOfData a "" h0)

theorem asString_ne_empty (l : List Char) (h : l ≠ []) : List.asString l ≠ "" := by
  intro h0
  exact h (congrArg String.data h0)

theorem getLast_append3 (a : List Char) (c : Char) (x y : List Char) (hy : y ≠ []) :
    (a ++ c :: (x ++ y)).getLast? = y.getLast? := by
  rw [List.getLast?_append_of_ne_nil a (by simp)]
  rw [show c :: (x ++ y) = (c :: x) ++ y by simp]
  exact List.getLast?_append_of_ne_nil _ hy

theorem specMatch_getLast (s n v e : String) (hs : s = n ++ "-" ++ v ++ ".tar." ++ e)
    (he : e = "gz" ∨ e = "bz2" ∨ e = "xz") : ¬ s.data.getLast? = some '\n' := by
  have hsd := congrArg String.data hs
  rw [specMatch_data] at hsd
  rw [hsd, getLast_append3 _ _ _ _ (by rcases he with he | he | he <;> subst he <;> simp)]
  rcases he with he | he | he <;> subst he <;> decide

/-- Claim C1, amended: for every archive filename matching the pattern
`<name>-<version>.tar.<ext>` with `<ext>` in {gz, bz2, xz}, constructing a
`Package` succeeds and recovers identity fields with
`archiveBase = name ++ "-" ++ version` and `tarball` equal to the whole
filename; the parse error is raised exactly for the nonempty tarball
arguments admitting no decomposition under the extended pattern the code
accepts (`<exts>` any nonempty run of gz/bz2/xz blocks, an optional
trailing newline tolerated). -/
theorem c1_filename_parsing :
    (∀ s n v e t0, SpecMatch s n v e →
        ∃ r, packageInit (some s) t0 = .ok r ∧
          r.base = r.name ++ "-" ++ r.version ∧ r.tarball = s) ∧
    (∀ s t0, s ≠ "" → (∀ n v e, ¬ CodeMatch s n v e) →
        packageInit (some s) t0 = .error ("Cannot parse tarball name: " ++ s)) := by
  constructor
  · rintro s n v e t0 ⟨hs, hn, hnd, hv, hall, he⟩
    have hsd := congrArg String.data hs
    rw [specMatch_data] at hsd
    have hne : s ≠ "" := by
      intro h0
      rw [h0] at hsd
      simp at hsd
    have hlast : ¬ s.data.getLast? = some '\n' := specMatch_getLast s n v e hs he
    have hex : extsRun e.data = true := by
      rcases he with he | he | he <;> subst he <;> rfl
    have hsome : (matchStem s.data).isSome = true := by
      rw [hsd]
      exact matchStem_complete n.data v.data e.data (strNeEmpty_data n hn) hnd
        (strNeEmpty_data v hv) hall hex
    obtain ⟨q, hq⟩ := Option.isSome_iff_exists.mp hsome
    have hparse : parseTarball s =
        some ⟨s.data.asString, q.1.asString, q.2.1.asString, q.2.2.asString⟩ := by
      simp only [parseTarball, if_neg hlast, hq, Option.map_some']
    refine ⟨{ tarball := s.data.asString,
              base := q.1.asString ++ "-" ++ q.2.1.asString,
              name := q.1.asString,
              title := if t0 = "" then q.1.asString else t0,
              version := q.2.1.asString }, ?_, rfl, ?_⟩
    · simp only [packageInit, if_neg hne, hparse]
    · exact strOfData _ _ rfl
  · intro s t0 hne hnc
    cases hp : parseTarball s with
    | none => simp [packageInit, if_neg hne, hp]
    | some r =>
      exfalso
      by_cases hl : s.data.getLast? = some '\n'
      · have hp' : (matchStem s.data.dropLast).map
            (fun q => (⟨(s.data.dropLast).asString, q.1.asString, q.2.1.asString,
              q.2.2.asString⟩ : TarballParse)) = some r := by
          simpa only [parseTarball, if_pos hl] using hp
        obtain ⟨⟨n0, v0, e0⟩, hq, _⟩ := Option.map_eq_some'.mp hp'
        obtain ⟨hcs, hn0, hnd, hv0, hall, hex⟩ := matchStem_sound _ _ _ _ hq
        apply hnc n0.asString v0.asString e0.asString
        refine ⟨Or.inr ?_, asString_ne_empty _ hn0, hnd, asString_ne_empty _ hv0, hall, hex⟩
        apply strOfData
        rw [strDataAppend, specMatch_data]
        have hfull : s.data.dropLast ++ ['\n'] = s.data :=
          List.dropLast_append_getLast? '\n' (by rw [Option.mem_def, hl])
        rw [← hfull, hcs]
        rfl
      · have hp' : (matchStem s.data).map
            (fun q => (⟨s.data.asString, q.1.asString, q.2.1.asString,
              q.2.2.asString⟩ : TarballParse)) = some r := by
          simpa only [parseTarball, if_neg hl] using hp
        obtain ⟨⟨n0, v0, e0⟩, hq, _⟩ := Option.map_eq_some'.mp hp'
        obtain ⟨hcs, hn0, hnd, hv0, hall, hex⟩ := matchStem_sound _ _ _ _ hq
        apply hnc n0.asString v0.asString e0.asString
        refine ⟨Or.inl ?_, asString_ne_empty _ hn0, hnd, asString_ne_empty _ hv0, hall, hex⟩
        apply strOfData
        rw [specMatch_data, hcs]
        rfl

theorem rev_take_of_specShape (s n v e : String) (hs : s = n ++ "-" ++ v ++ ".tar." ++ e) :
    s.data.reverse.take (e.data.length + 5) = (tarDot ++ e.data).reverse := by
  have hsd := congrArg String.data hs
  rw [specMatch_data] at hsd
  rw [hsd]
  rw [show n.data ++ '-' :: (v.data ++ tarDot ++ e.data) =
        (n.data ++ '-' :: v.data) ++ (tarDot ++ e.data) by simp]
  rw [List.reverse_append]
  refine List.take_left' ?_
  rw [List.length_reverse, List.length_append]
  simp [tarDot]
  omega

/-- Claim C1 counterexample: `foo-1.0.tar.gzgz` admits no decomposition
`<name>-<version>.tar.<ext>` with `<ext>` in {gz, bz2, xz}, so by the claim
construction should raise the parse error; but the code's pattern ends in
`(gz|bz2|xz)+`, so `Package.__init__` accepts it. -/
theorem c1_counterexample :
    (∀ n v e, ¬ SpecMatch "foo-1.0.tar.gzgz" n v e) ∧
    packageInit (some "foo-1.0.tar.gzgz") "" =
      .ok ⟨"foo-1.0.tar.gzgz", "foo-1.0", "foo", "foo", "1.0"⟩ := by
  constructor
  · rintro n v e ⟨hs, -, -, -, -, he⟩
    rcases he with he | he | he <;> subst he <;>
      exact absurd (rev_take_of_specShape _ n v _ hs) (by decide)
  · rfl

theorem codeMatch_head (s n v e : String) (h : CodeMatch s n v e) :
    s.data.head? = n.data.head? := by
  obtain ⟨hs, hn, -⟩ := h
  cases hne : n.data with
  | nil => exact absurd hne (strNeEmpty_data n hn)
  | cons a as =>
    rcases hs with hs | hs
    · have hd := congrArg String.data hs
      rw [specMatch_data, hne] at hd
      rw [hd]
      rfl
    · have hd := congrArg String.data hs
      rw [strDataAppend, specMatch_data, hne] at hd
      rw [hd]
      rfl

/-- Witness for `c1_filename_parsing` at concrete inputs: `abc-1.0.tar.gz`
parses with the claimed fields, and `1.0.tar.gz` (digit-leading name part)
raises the parse error. -/
theorem c1_filename_parsing_witness :
    (∃ r, packageInit (some "abc-1.0.tar.gz") "" = .ok r ∧
        r.base = r.name ++ "-" ++ r.version ∧ r.tarball = "abc-1.0.tar.gz") ∧
    packageInit (some "1.0.tar.gz") "" =
      .error ("Cannot parse tarball name: " ++ "1.0.tar.gz") := by
  constructor
  · exact c1_filename_parsing.1 "abc-1.0.tar.gz" "abc" "1.0" "gz" ""
      ⟨rfl, by decide, by decide, by decide, by decide, Or.inl rfl⟩
  · apply c1_filename_parsing.2 "1.0.tar.gz" "" (by decide)
    intro n v e h
    have hh := codeMatch_head _ _ _ _ h
    obtain ⟨-, hn, hnd, -⟩ := h
    cases hne : n.data with
    | nil => exact strNeEmpty_data n hn hne
    | cons a as =>
      rw [hne] at hh
      have hh' : some '1' = some a := hh
      have ha := Option.some.inj hh'
      subst ha
      exact hnd '1' (by rw [hne]; exact List.mem_cons_self _ _) rfl

/-- Claim C3 counterexample: for start `("A",10)` and stop `("B",5)` with
no explicit refresh/restart, the unique rendered refresh (and restart)
fragment carries the command `"A; B"` — the start command followed by the
stop command — with timeout 15, and `"A; B"` is not the claimed
stop-then-start concatenation `"B; A"`. -/
theorem c3_counterexample :
    (methodSpecs c3sm).filter (fun x => x.1 = "refresh") = [("refresh", "A; B", 15)] ∧
    (methodSpecs c3sm).filter (fun x => x.1 = "restart") = [("restart", "A; B", 15)] ∧
    ("A; B" : String) ≠ "B; A" := by
  refine ⟨rfl, rfl, by decide⟩

/-- Claim C3, amended: with start `(A, tA)` and stop `(B, tB)` set and no
explicit refresh/restart command, `generate_manifest` renders refresh and
restart fragments whose command is the concatenation `start; stop` (the
start command followed by the stop command) and whose timeout is
`tA + tB`. -/
theorem c3_default_refresh_restart (sm : ServiceManifest) (A B : String) (tA tB : Int)
    (hs : sm.start_command = some (A, tA)) (ht : sm.stop_command = some (B, tB))
    (hr : sm.refresh_command = none) (hq : sm.restart_command = none) :
    methodSpecs sm = [("start", A, tA), ("stop", B, tB),
                      ("refresh", A ++ "; " ++ B, tA + tB),
                      ("restart", A ++ "; " ++ B, tA + tB)] := by
  simp [methodSpecs, hs, ht, hr, hq]

/-- Witness for `c3_default_refresh_restart` at the concrete descriptor `c3sm`. -/
theorem c3_default_refresh_restart_witness :
    methodSpecs c3sm = [("start", "A", 10), ("stop", "B", 5),
                        ("refresh", "A; B", 15), ("restart", "A; B", 15)] :=
  c3_default_refresh_restart c3sm "A" "B" 10 5 rfl rfl rfl rfl

/-- Claim C4: when both start and stop commands are set, the rendered
method fragments are computed from the commands only (the init script is
not consulted, present or not); when neither commands nor an init script
are present, no `exec_method` fragment is rendered at all and the
accumulator holds only the dependency fragments. -/
theorem c4_method_precedence (sm : ServiceManifest) :
    (∀ a b, sm.start_command = some a → sm.stop_command = some b →
        methodSpecs sm = commandMethodSpecs a b sm.refresh_command sm.restart_command) ∧
    (sm.start_command = none → sm.stop_command = none → sm.init_script = none →
        methodSpecs sm = [] ∧ dependenciesXml sm = depsXml sm) := by
  constructor
  · rintro ⟨sa, ta⟩ ⟨sb, tb⟩ hs ht
    simp [methodSpecs, commandMethodSpecs, hs, ht]
  · intro hs ht hi
    have hms : methodSpecs sm = [] := by
      simp [methodSpecs, hs, ht, hi]
    refine ⟨hms, ?_⟩
    simp [dependenciesXml, hms, String.join]

/-- Witness for `c4_method_precedence`: a descriptor with commands and an
init script renders the command-derived fragments; one with neither
renders none. -/
theorem c4_method_precedence_witness :
    methodSpecs { name := "w", title := "w", service_name := "w",
                  dependencies := [], config_files := [],
                  init_script := some "/etc/init.d/w",
                  start_command := some ("S", 1), stop_command := some ("T", 2) } =
      commandMethodSpecs ("S", 1) ("T", 2) none none ∧
    methodSpecs { name := "w2", title := "w2", service_name := "w2",
                  dependencies := ["filesystem"], config_files := [] } = [] ∧
    dependenciesXml { name := "w2", title := "w2", service_name := "w2",
                      dependencies := ["filesystem"], config_files := [] } =
      depsXml { name := "w2", title := "w2", service_name := "w2",
                dependencies := ["filesystem"], config_files := [] } := by
  refine ⟨?_, ?_, ?_⟩
  · exact (c4_method_precedence _).1 ("S", 1) ("T", 2) rfl rfl
  · exact ((c4_method_precedence _).2 rfl rfl rfl).1
  · exact ((c4_method_precedence _).2 rfl rfl rfl).2

/-- Claim C5: the prototype descriptor never contains a line describing the
staging root's mapping to `/` (a line opening `d none / `), and every other
line produced by the path-to-manifest-line enumeration is appended. -/
theorem c5_root_excluded (lines : List String) :
    (∀ l ∈ filterProtoLines lines, lineIsRoot l = false) ∧
    (∀ l ∈ lines, lineIsRoot l = false → l ∈ filterProtoLines lines) ∧
    filterProtoLines lines = lines.filter (fun l => lineIsRoot l = false) := by
  refine ⟨?_, ?_, ?_⟩
  · intro l hl
    have := (List.mem_filter.mp hl).2
    simpa using this
  · intro l hl hroot
    refine List.mem_filter.mpr ⟨hl, ?_⟩
    simpa using hroot
  · simp [filterProtoLines]

/-- Witness for `c5_root_excluded` at a concrete `pkgproto` output. -/
theorem c5_root_excluded_witness :
    (∀ l ∈ filterProtoLines ["d none / 0755 root sys", "d none /usr 0755 root sys"],
        lineIsRoot l = false) ∧
    ("d none /usr 0755 root sys" ∈
        filterProtoLines ["d none / 0755 root sys", "d none /usr 0755 root sys"]) := by
  constructor
  · exact (c5_root_excluded ["d none / 0755 root sys", "d none /usr 0755 root sys"]).1
  · exact (c5_root_excluded ["d none / 0755 root sys", "d none /usr 0755 root sys"]).2.1
      "d none /usr 0755 root sys" (by decide) (by decide)

theorem ownershipPass_not_mem (staging : String) (live : String → Option FileAttrs)
    (dirs : List String) (attrs : String → FileAttrs) (p : String) (hp : p ∉ dirs) :
    ownershipPass staging live dirs attrs p = attrs p := by
  induction dirs generalizing attrs with
  | nil => rfl
  | cons d rest ih =>
    have hpd : p ≠ d := fun h => hp (h ▸ List.mem_cons_self d rest)
    have hpr : p ∉ rest := fun h => hp (List.mem_cons_of_mem d h)
    simp only [ownershipPass, List.foldl_cons]
    cases hld : live ("/" ++ relUnder staging d) with
    | some la =>
      simp only [hld]
      have h2 := ih (fun q => if q = d then la else attrs q) hpr
      simp only [ownershipPass] at h2
      rw [h2]
      simp [hpd]
    | none =>
      simp only [hld]
      have h2 := ih attrs hpr
      simp only [ownershipPass] at h2
      exact h2

/-- Claim C6: after the assembly stage's ownership walk, a staged directory
whose corresponding absolute path is a live directory carries the live
path's owner, group and mode; a staged directory with no live counterpart
keeps its as-created attributes. -/
theorem c6_ownership_inheritance (staging : String) (live : String → Option FileAttrs)
    (dirs : List String) (attrs : String → FileAttrs) (p : String)
    (hnd : dirs.Nodup) (hp : p ∈ dirs) :
    ownershipPass staging live dirs attrs p =
      (match live ("/" ++ relUnder staging p) with
       | some la => la
       | none => attrs p) := by
  induction dirs generalizing attrs with
  | nil => cases hp
  | cons d rest ih =>
    simp only [ownershipPass, List.foldl_cons]
    rcases List.mem_cons.mp hp with hpd | hpr
    · subst hpd
      have hnr : p ∉ rest := (List.nodup_cons.mp hnd).1
      cases hla : live ("/" ++ relUnder staging p) with
      | some la =>
        simp only [hla]
        have h2 := ownershipPass_not_mem staging live rest
          (fun q => if q = p then la else attrs q) p hnr
        simp only [ownershipPass] at h2
        rw [h2]
        simp
      | none =>
        simp only [hla]
        have h2 := ownershipPass_not_mem staging live rest attrs p hnr
        simp only [ownershipPass] at h2
        exact h2
    · have hnr := (List.nodup_cons.mp hnd).2
      have hpd : p ≠ d := by
        intro h
        exact (List.nodup_cons.mp hnd).1 (h ▸ hpr)
      cases hla : live ("/" ++ relUnder staging d) with
      | some la =>
        simp only [hla]
        have h2 := ih (fun q => if q = d then la else attrs q) hnr hpr
        simp only [ownershipPass] at h2
        rw [h2]
        simp [hpd]
      | none =>
        simp only [hla]
        have h2 := ih attrs hnr hpr
        simp only [ownershipPass] at h2
        exact h2

/-- Witness for `c6_ownership_inheritance`: under staging root
`/tmp/pkg-staging`, the staged `/tmp/pkg-staging/etc` inherits the live
`/etc` attributes, while a staged directory with no live counterpart keeps
its own. -/
theorem c6_ownership_inheritance_witness :
    ownershipPass "/tmp/pkg-staging"
      (fun q => if q = "/etc" then some ⟨0, 3, 493⟩ else none)
      ["/tmp/pkg-staging/etc", "/tmp/pkg-staging/opt"]
      (fun _ => ⟨0, 0, 448⟩) "/tmp/pkg-staging/etc" = ⟨0, 3, 493⟩ ∧
    ownershipPass "/tmp/pkg-staging"
      (fun q => if q = "/etc" then some ⟨0, 3, 493⟩ else none)
      ["/tmp/pkg-staging/etc", "/tmp/pkg-staging/opt"]
      (fun _ => ⟨0, 0, 448⟩) "/tmp/pkg-staging/opt" = ⟨0, 0, 448⟩ := by
  constructor
  · have := c6_ownership_inheritance "/tmp/pkg-staging"
      (fun q => if q = "/etc" then some ⟨0, 3, 493⟩ else none)
      ["/tmp/pkg-staging/etc", "/tmp/pkg-staging/opt"]
      (fun _ => ⟨0, 0, 448⟩) "/tmp/pkg-staging/etc" (by decide) (by decide)
    simpa using this
  · have := c6_ownership_inheritance "/tmp/pkg-staging"
      (fun q => if q = "/etc" then some ⟨0, 3, 493⟩ else none)
      ["/tmp/pkg-staging/etc", "/tmp/pkg-staging/opt"]
      (fun _ => ⟨0, 0, 448⟩) "/tmp/pkg-staging/opt" (by decide) (by decide)
    simpa using this

/-- Claim C7: the dispatcher selects a registered variant exactly when some
registered key followed by `-` is a prefix of the archive path — key `foo`
matches `foo-1.0.tar.gz` but not `foobar-1.0.tar.gz` — it selects exactly
one key, and falls back to the generic pipeline when no key matches. -/
theorem c7_dispatcher (keys : List String) (path : String) :
    ((∃ k ∈ keys, strPre (k ++ "-") path = true) →
        ∃ k, dispatch keys path = .variant k ∧ k ∈ keys ∧ strPre (k ++ "-") path = true ∧
          ∀ k2, dispatch keys path = .variant k2 → k2 = k) ∧
    ((∀ k ∈ keys, strPre (k ++ "-") path = false) → dispatch keys path = .generic) ∧
    dispatch ["foo"] "foo-1.0.tar.gz" = .variant "foo" ∧
    dispatch ["foo"] "foobar-1.0.tar.gz" = .generic := by
  refine ⟨?_, ?_, rfl, rfl⟩
  · intro hex
    have hsome : (keys.find? (fun k => strPre (k ++ "-") path)).isSome = true := by
      rw [List.find?_isSome]
      obtain ⟨k, hk, hpk⟩ := hex
      exact ⟨k, hk, hpk⟩
    obtain ⟨k, hk⟩ := Option.isSome_iff_exists.mp hsome
    refine ⟨k, ?_, List.mem_of_find?_eq_some hk, by have := List.find?_some hk; simpa using this, ?_⟩
    · simp [dispatch, selectVariant, hk]
    · intro k2 h2
      simp [dispatch, selectVariant, hk] at h2
      exact h2.symm
  · intro hall
    have hnone : keys.find? (fun k => strPre (k ++ "-") path) = none := by
      rw [List.find?_eq_none]
      intro k hk
      simp [hall k hk]
    simp [dispatch, selectVariant, hnone]

/-- Witness for `c7_dispatcher` on the registry's actual keys. -/
theorem c7_dispatcher_witness :
    (∃ k, dispatch pkgmapKeys "dovecot-2.0.tar.gz" = .variant k ∧ k ∈ pkgmapKeys ∧
        strPre (k ++ "-") "dovecot-2.0.tar.gz" = true ∧
        ∀ k2, dispatch pkgmapKeys "dovecot-2.0.tar.gz" = .variant k2 → k2 = k) ∧
    dispatch pkgmapKeys "hello-1.0.tar.gz" = .generic := by
  constructor
  · exact (c7_dispatcher pkgmapKeys "dovecot-2.0.tar.gz").1 ⟨"dovecot", by decide, by decide⟩
  · exact (c7_dispatcher pkgmapKeys "hello-1.0.tar.gz").2.1 (by decide)

/-- Claim C8 counterexample: the decompression and extraction processes of
`unpack` exit non-zero, yet the stage completes without raising — their
completion statuses are never examined, contradicting the claim for the
external tools invoked during unpack. -/
theorem c8_counterexample :
    c8env.decompressExit ≠ 0 ∧ c8env.tarExit ≠ 0 ∧
    unpackResult c8env "foo-1.0.tar.gz" "foo-1.0" = .ok () := by
  refine ⟨by decide, by decide, rfl⟩

/-- Claim C8, amended: every stage command run through `shell`
(configure, build, install, pkgmk, pkgtrans, unpack's chown) raises
exactly on a non-zero completion status, with the failing command
recorded; but unpack's piped decompression/extraction processes are
spawned without any status check, so their statuses never influence the
stage's outcome. -/
theorem c8_shell_failure (code : Int) (args : List String) :
    (code ≠ 0 → shellRun code args =
        .error (.exception ("Command failed: " ++ toString args))) ∧
    (code = 0 → shellRun code args = .ok true) ∧
    (code ≠ 0 → (∃ m, configureRun code = .error m) ∧ (∃ m, buildRun code = .error m) ∧
      (∀ staging, ∃ m, installRun code staging = .error m) ∧
      (∃ m, pkgmkRun code = .error m) ∧ (∀ b n, ∃ m, pkgtransRun code b n = .error m)) ∧
    (∀ env : UnpackEnv, ∀ tb b : String, ∀ d t : Int,
        unpackResult { env with decompressExit := d, tarExit := t } tb b =
          unpackResult env tb b) := by
  have hf : ∀ c : Int, c ≠ 0 → ∀ as : List String,
      shellRun c as = .error (.exception ("Command failed: " ++ toString as)) := by
    intro c hc as
    simp [shellRun, hc]
  refine ⟨fun h => hf code h args, fun h => by simp [shellRun, h], fun h => ?_,
    fun env tb b d t => rfl⟩
  exact ⟨⟨_, hf code h _⟩, ⟨_, hf code h _⟩, fun staging => ⟨_, hf code h _⟩,
    ⟨_, hf code h _⟩, fun b n => ⟨_, hf code h _⟩⟩

/-- Witness for `c8_shell_failure` at concrete statuses. -/
theorem c8_shell_failure_witness :
    shellRun 1 ["pkgmk", "-o"] =
      .error (.exception ("Command failed: " ++ toString ["pkgmk", "-o"])) ∧
    shellRun 0 ["pkgmk", "-o"] = .ok true ∧
    (∃ m, configureRun 1 = .error m) ∧
    unpackResult { c8env with decompressExit := 5, tarExit := 7 } "x-1.tar.gz" "x-1" =
      unpackResult c8env "x-1.tar.gz" "x-1" := by
  refine ⟨(c8_shell_failure 1 ["pkgmk", "-o"]).1 (by decide),
          (c8_shell_failure 0 ["pkgmk", "-o"]).2.1 rfl,
          ((c8_shell_failure 1 []).2.2.1 (by decide)).1,
          (c8_shell_failure 0 []).2.2.2 c8env "x-1.tar.gz" "x-1" 5 7⟩

/-- Claim C9: a sibling `<name>.xml` (the path `join(cwd, name + ".xml")`,
which resolves next to the archive for both relative and absolute archive
paths since the parsed name keeps any directory part) is adopted at
construction time, and the package stage then copies it into the staging
profile directory, queues the lifecycle script lines, and never
synthesizes a descriptor from a discovered init script. -/
theorem c9_sibling_manifest (files : List String) (cwd name title base : String)
    (staged proto : List String)
    (hf : pathJoin cwd (name ++ ".xml") ∈ files) :
    initManifestPath files cwd name = some (pathJoin cwd (name ++ ".xml")) ∧
    packageStage (some (.path (pathJoin cwd (name ++ ".xml")))) name title base
        staged proto =
      .ok { copiedManifest := some (pyBasename (pathJoin cwd (name ++ ".xml"))),
            postinstall := ["svccfg import /etc/svc/profile/" ++
              pyBasename (pathJoin cwd (name ++ ".xml"))],
            preremove := ["svcadm disable " ++ name],
            postremove := ["svccfg delete " ++ name],
            synthesized := none,
            protoLines := filterProtoLines proto } := by
  refine ⟨?_, rfl⟩
  simp [initManifestPath, hf]

/-- Witness for `c9_sibling_manifest`: `/work/foo.xml` exists next to the
archive; it is copied and nothing is synthesized even though
`etc/init.d/foo` is staged. -/
theorem c9_sibling_manifest_witness :
    initManifestPath ["/work/foo.xml", "/work/foo-2.3.tar.gz"] "/work" "foo" =
      some (pathJoin "/work" ("foo" ++ ".xml")) ∧
    packageStage (some (.path (pathJoin "/work" ("foo" ++ ".xml")))) "foo" "foo" "foo-2.3"
        ["etc/init.d/foo"] ["d none / 0755 root sys"] =
      .ok { copiedManifest := some (pyBasename (pathJoin "/work" ("foo" ++ ".xml"))),
            postinstall := ["svccfg import /etc/svc/profile/" ++
              pyBasename (pathJoin "/work" ("foo" ++ ".xml"))],
            preremove := ["svcadm disable " ++ "foo"],
            postremove := ["svccfg delete " ++ "foo"],
            synthesized := none,
            protoLines := filterProtoLines ["d none / 0755 root sys"] } :=
  c9_sibling_manifest ["/work/foo.xml", "/work/foo-2.3.tar.gz"] "/work" "foo" "foo"
    "foo-2.3" ["etc/init.d/foo"] ["d none / 0755 root sys"] (by decide)

/-- Claim C2 (code bug): in the claimed scenario — archive
`foo-2.3.tar.gz`, no sibling `foo.xml`, default stages, install writes
`etc/init.d/foo` — no descriptor is synthesized at all: the discovery
probe checks `etc/init.d/<base>` = `etc/init.d/foo-2.3`, not the staged
`etc/init.d/foo` (first conjunct; the root-exclusion part of the scenario
does hold).  Were the probe to succeed, `'etc/init.d' % self.base` raises
`TypeError` (second conjunct), and the init-script rendering branch emits
literal `%s` commands, never `etc/init.d/foo <verb>` (third conjunct). -/
theorem c2_scenario_code_eval :
    packageStage none "foo" "foo" "foo-2.3" ["etc/init.d/foo"]
        ["d none / 0755 root sys", "d none /etc 0755 root sys",
         "f none /etc/init.d/foo 0744 root sys"] =
      .ok { copiedManifest := none, postinstall := [], preremove := [],
            postremove := [], synthesized := none,
            protoLines := ["d none /etc 0755 root sys",
                           "f none /etc/init.d/foo 0744 root sys"] } ∧
    packageStage none "foo" "foo" "foo-2.3" ["etc/init.d/foo-2.3"] [] =
      .error (.typeError "not all arguments converted during string formatting") ∧
    methodSpecs { name := "foo", title := "foo",
                  service_name := "application/foo-2.3",
                  dependencies := ["filesystem", "network"], config_files := [],
                  init_script := some "etc/init.d/foo" } =
      [("start", "%s start", 60), ("stop", "%s stop", 60),
       ("refresh", "%s stop; %s start", 60), ("restart", "%s stop; %s start", 60)] := by
  refine ⟨rfl, rfl, rfl⟩

/-- Claim C10: the default dependency and config-file lists are single
shared mutable objects: after a first default-constructed descriptor
receives `add_dependency "network"` and `add_config_file "/etc/foo.conf"`,
a second default-constructed descriptor observes `["filesystem",
"network"]` and `["/etc/foo.conf"]` instead of fresh defaults — both
descriptors hold the very same list objects. -/
theorem c10_shared_default_lists :
    readList c10st2 c10sm2.depsRef = ["filesystem", "network"] ∧
    readList c10st2 c10sm2.configRef = ["/etc/foo.conf"] ∧
    c10sm2.depsRef = c10sm1.depsRef ∧ c10sm2.configRef = c10sm1.configRef := by
  refine ⟨rfl, rfl, rfl, rfl⟩

end Pkgbuild
